import Mathlib

/-!
Verification development for the subtitle transcription/translation pipeline
(python-script/api/models.py, python-script/api/process_transcription.py,
python-script/client/subtitle_client.py).

Python strings are modelled as List Char, Python int as Nat (all integers
involved are non-negative), raising an exception as returning Option.none.
-/

set_option maxRecDepth 2000

namespace SubtitleApp

/-- Shorthand turning a Lean string literal into the List Char model of a
Python string. -/
def str (s : String) : List Char := s.data

/-- Numeric value of a decimal digit character. -/
def digitVal (c : Char) : Nat := c.toNat - 48

/-- Decimal digit characters of a natural number, most significant first,
computed with explicit fuel (fuel larger than the number is always enough).
Models the digits of Python repr(n) for a non-negative int n. -/
def natDigitsAux : Nat → Nat → List Char
  | 0, _ => []
  | fuel + 1, n =>
    if n < 10 then [Nat.digitChar n]
    else natDigitsAux fuel (n / 10) ++ [Nat.digitChar (n % 10)]

/-- Decimal representation of a natural number, as produced by Python repr. -/
def natDigits (n : Nat) : List Char := natDigitsAux (n + 1) n

/-- Model of the Python format spec {n:02}: decimal digits left-padded with
zeros to width at least 2 (wider numbers are not truncated). -/
def pad2 (n : Nat) : List Char :=
  if n < 10 then ['0', Nat.digitChar n] else natDigits n

/-- Model of the Python format spec {n:03}: decimal digits left-padded with
zeros to width at least 3 (wider numbers are not truncated). -/
def pad3 (n : Nat) : List Char :=
  if n < 10 then ['0', '0', Nat.digitChar n]
  else if n < 100 then '0' :: natDigits n
  else natDigits n

/-- The condition checked by re.match against the Timestamp pattern
(\d\d):(\d\d):(\d\d),(\d\d\d): the string has at least twelve characters and
positions 0-11 are digit, digit, colon, digit, digit, colon, digit, digit,
comma, digit, digit, digit. re.match anchors only at the start, so no
condition is imposed past position 11. -/
def tsCond (cs : List Char) : Prop :=
  12 ≤ cs.length ∧
  (cs.getD 0 ' ').isDigit ∧ (cs.getD 1 ' ').isDigit ∧ cs.getD 2 ' ' = ':' ∧
  (cs.getD 3 ' ').isDigit ∧ (cs.getD 4 ' ').isDigit ∧ cs.getD 5 ' ' = ':' ∧
  (cs.getD 6 ' ').isDigit ∧ (cs.getD 7 ' ').isDigit ∧ cs.getD 8 ' ' = ',' ∧
  (cs.getD 9 ' ').isDigit ∧ (cs.getD 10 ' ').isDigit ∧ (cs.getD 11 ' ').isDigit

instance tsCondDec (cs : List Char) : Decidable (tsCond cs) := by
  unfold tsCond
  infer_instance

/-- Embedding of Timestamp._parse (models.py lines 28-34): re.match against
(\d\d):(\d\d):(\d\d),(\d\d\d) anchored at the start of the string only, so
characters after the first twelve are ignored; on success the value
(hr * 3600 + min * 60 + s) * 1000 + ms; the ValueError raised on failure is
modelled as none. -/
def parseTimestamp (cs : List Char) : Option Nat :=
  if tsCond cs then
    some (((10 * digitVal (cs.getD 0 ' ') + digitVal (cs.getD 1 ' ')) * 3600 +
           (10 * digitVal (cs.getD 3 ' ') + digitVal (cs.getD 4 ' ')) * 60 +
           (10 * digitVal (cs.getD 6 ' ') + digitVal (cs.getD 7 ' '))) * 1000 +
          (100 * digitVal (cs.getD 9 ' ') + 10 * digitVal (cs.getD 10 ' ') +
           digitVal (cs.getD 11 ' ')))
  else none

/-- Embedding of Timestamp.__str__ (models.py lines 36-41): the f-string
with fields hr, min, s, ms computed by integer division and remainder from
the millisecond value, hours zero-padded to two digits but not truncated. -/
def formatTimestamp (v : Nat) : List Char :=
  pad2 (v / 3600000) ++ ':' :: pad2 (v / 60000 % 60) ++ ':' ::
    pad2 (v / 1000 % 60) ++ ',' :: pad3 (v % 1000)

/-- The canonical text DD:DD:DD,DDD built from four field values; for
h, m, s below 100 and ms below 1000 this enumerates exactly the strings of
the claimed shape two digits, colon, two digits, colon, two digits, comma,
three digits. -/
def mkTime (h m s ms : Nat) : List Char :=
  pad2 h ++ ':' :: pad2 m ++ ':' :: pad2 s ++ ',' :: pad3 ms

/-- Statement of the spec's exact pattern, written from the claim's words:
the whole string is two digits, colon, two digits, colon, two digits, comma,
three digits, and nothing else in the string. Used only to compare the
spec's description of parsing with the behaviour of the code. -/
def matchesExact : List Char → Bool
  | [h1, h2, c1, m1, m2, c2, s1, s2, c3, d1, d2, d3] =>
    if h1.isDigit ∧ h2.isDigit ∧ c1 = ':' ∧ m1.isDigit ∧ m2.isDigit ∧ c2 = ':' ∧
        s1.isDigit ∧ s2.isDigit ∧ c3 = ',' ∧ d1.isDigit ∧ d2.isDigit ∧ d3.isDigit then
      true
    else false
  | _ => false

/-- Embedding of SubtitleEntry (models.py lines 47-52): index is a Python
int (non-negative in every reachable state), the two time fields are kept
as strings exactly as in the source, translation is Optional. -/
structure SubtitleEntry where
  index : Nat
  start_time : List Char
  end_time : List Char
  text : List Char
  translation : Option (List Char)
deriving DecidableEq, Repr

/-- Python truthiness of an Optional str: None and the empty string are
falsy, every other string is truthy. -/
def strTruthy : Option (List Char) → Bool
  | none => false
  | some t => !t.isEmpty

/-- Embedding of SubtitleEntry.to_srt_block (models.py lines 54-58):
content is translation when use_translation is set and translation is
truthy, else text; then overridden with text, newline, translation when
is_bilingual is set and translation is truthy; the block is the f-string
index, newline, start --> end, newline, content, newline. -/
def to_srt_block (e : SubtitleEntry) (use_translation : Bool) (is_bilingual : Bool) :
    List Char :=
  let content := if use_translation && strTruthy e.translation then e.translation.getD []
    else e.text
  let content2 := if is_bilingual && strTruthy e.translation then
      e.text ++ '\n' :: e.translation.getD []
    else content
  natDigits e.index ++ '\n' :: e.start_time ++ ' ' :: '-' :: '-' :: '>' :: ' ' ::
    e.end_time ++ '\n' :: content2 ++ ['\n']

/-- The three rendering modes of the spec; the code selects them through
the two boolean flags of to_srt_block. -/
inductive RenderMode
  | original
  | translated
  | bilingual
deriving DecidableEq, Repr

/-- The flag pair (use_translation, is_bilingual) the callers in main.py
pass for each mode. -/
def modeFlags : RenderMode → Bool × Bool
  | .original => (false, false)
  | .translated => (true, false)
  | .bilingual => (false, true)

/-- Content of a block per mode exactly as the claim words it: original
emits text; translated emits translation if present else text; bilingual
emits text then translation on the next line if translation is present,
else text alone, with only an empty-string translation in bilingual mode
treated as no translation. Written from the claim, for comparison with the
code. -/
def claimContent (e : SubtitleEntry) : RenderMode → List Char
  | .original => e.text
  | .translated =>
    match e.translation with
    | some t => t
    | none => e.text
  | .bilingual =>
    match e.translation with
    | some t => if t.isEmpty then e.text else e.text ++ '\n' :: t
    | none => e.text

/-- Block per mode as the claim words it, around claimContent. -/
def claimBlock (e : SubtitleEntry) (m : RenderMode) : List Char :=
  natDigits e.index ++ '\n' :: e.start_time ++ ' ' :: '-' :: '-' :: '>' :: ' ' ::
    e.end_time ++ '\n' :: claimContent e m ++ ['\n']

/-- Content per mode with an empty-string translation treated as no
translation in translated mode as well as bilingual mode (the amended
description of the code's truthiness test). -/
def amendedContent (e : SubtitleEntry) : RenderMode → List Char
  | .original => e.text
  | .translated => if strTruthy e.translation then e.translation.getD [] else e.text
  | .bilingual =>
    if strTruthy e.translation then e.text ++ '\n' :: e.translation.getD []
    else e.text

/-- Block per mode around amendedContent. -/
def amendedBlock (e : SubtitleEntry) (m : RenderMode) : List Char :=
  natDigits e.index ++ '\n' :: e.start_time ++ ' ' :: '-' :: '-' :: '>' :: ' ' ::
    e.end_time ++ '\n' :: amendedContent e m ++ ['\n']

/-- Embedding of SubtitleEntry.offset (models.py lines 60-64): both time
strings are re-parsed as Timestamps, the offset is added, and the fields
are replaced by the formatted sums; a parse failure raises (none). -/
def SubtitleEntry.offset (e : SubtitleEntry) (off : Nat) : Option SubtitleEntry :=
  match parseTimestamp e.start_time with
  | none => none
  | some s =>
    match parseTimestamp e.end_time with
    | none => none
    | some t =>
      some { e with start_time := formatTimestamp (s + off),
                    end_time := formatTimestamp (t + off) }

/-- One regex match of the subtitle-block pattern in Transcription.from_srt
(models.py line 75): the captured groups index (converted to int), start
text, end text, and body text. -/
structure SrtMatch where
  idx : Nat
  mstart : List Char
  mend : List Char
  mtext : List Char
deriving DecidableEq, Repr

/-- Python str.strip: leading and trailing whitespace removed. -/
def pyStrip (cs : List Char) : List Char :=
  ((cs.dropWhile Char.isWhitespace).reverse.dropWhile Char.isWhitespace).reverse

/-- Embedding of Transcription (models.py lines 67-71): the subtitles list
and the two watermark fields end_time and end_index. -/
structure Transcription where
  subtitles : List SubtitleEntry
  end_time : Nat
  end_index : Nat
deriving DecidableEq, Repr

/-- Embedding of Transcription.from_srt (models.py lines 73-83) downstream
of the regex: each match becomes an entry with int(idx), the two time
strings, and the stripped text; end_index is the last entry's index, or 0
when there are no entries; end_time is the passed value. -/
def from_srt (blockMatches : List SrtMatch) (end_time : Nat) : Transcription :=
  let subtitles := blockMatches.map fun m =>
    SubtitleEntry.mk m.idx m.mstart m.mend (pyStrip m.mtext) none
  let end_index := match subtitles.getLast? with
    | some e => e.index
    | none => 0
  Transcription.mk subtitles end_time end_index

/-- Embedding of Transcription.offset (models.py lines 85-88): every entry
is offset by offset_ms and its index is increased by offset_index; the
end_time and end_index fields are not touched. A timestamp parse failure
in any entry raises (none). -/
def Transcription.offset (t : Transcription) (offset_ms offset_index : Nat) :
    Option Transcription :=
  (t.subtitles.mapM fun (s : SubtitleEntry) =>
    (s.offset offset_ms).map fun s2 => { s2 with index := s2.index + offset_index }).map
    fun subs => { t with subtitles := subs }

/-- Python int() on a string of decimal digits. -/
def pyInt (cs : List Char) : Nat := cs.foldl (fun a c => a * 10 + digitVal c) 0

/-- Split a string at underscore characters, as Python str.split with
separator underscore. -/
def splitU : List Char → List (List Char)
  | [] => [[]]
  | c :: rest =>
    if c = '_' then [] :: splitU rest
    else
      match splitU rest with
      | [] => [[c]]
      | h :: t => (c :: h) :: t

/-- Path.stem for the chunk files handled here: the file name with its
four-character extension (dot s r t, or dot w a v) removed. -/
def pathStem (name : List Char) : List Char := name.take (name.length - 4)

/-- Offset extraction of process_transcription (line 35): the integer value
of the last underscore-separated field of the file stem. -/
def extractOffset (stem : List Char) : Nat := pyInt (((splitU stem).getLast?).getD [])

/-- Lexicographic comparison of strings by character code point; this is
the order Python sorted uses on str. -/
def lexLe : List Char → List Char → Bool
  | [], _ => true
  | _ :: _, [] => false
  | a :: as, b :: bs =>
    if a.toNat < b.toNat then true
    else if b.toNat < a.toNat then false
    else lexLe as bs

/-- One SRT file handed to process_transcription: its file name and the
list of regex matches of its content. -/
abbrev SrtFile := List Char × List SrtMatch

/-- Insertion step of an insertion sort by file name. -/
def insertByName (x : SrtFile) : List SrtFile → List SrtFile
  | [] => [x]
  | y :: ys => if lexLe x.1 y.1 then x :: y :: ys else y :: insertByName x ys

/-- Stable ascending sort of files by name under lexLe; on the pairwise
distinct names produced by the chunker this agrees with Python
sorted(input_directory.glob(...)). -/
def sortByName (l : List SrtFile) : List SrtFile := l.foldr insertByName []

/-- One iteration of the merge loop of process_transcription (lines 30-46):
the offset is extracted from the file name, the file's matches are parsed
with that value as end_time, the new transcription is shifted by the
accumulated end_time/end_index watermark when the accumulator is
non-empty, and the accumulator takes the new transcription's entries and
its (unshifted) end_time and end_index. -/
def mergeFile (combined : Transcription) (file : SrtFile) : Option Transcription :=
  let end_time := extractOffset (pathStem file.1)
  let t := from_srt file.2 end_time
  let shifted := if combined.subtitles.isEmpty then some t
    else t.offset combined.end_time combined.end_index
  shifted.map fun t2 =>
    Transcription.mk (combined.subtitles ++ t2.subtitles) t2.end_time t2.end_index

/-- Embedding of process_transcription (process_transcription.py lines
25-48): the SRT files are visited in sorted file-name order and folded into
one Transcription starting from the empty one. -/
def process_transcription (files : List SrtFile) : Option Transcription :=
  (sortByName files).foldlM mergeFile (Transcription.mk [] 0 0)

/-- Absolute difference on naturals, for the distance to the ideal cut. -/
def natDist (a b : Nat) : Nat := max a b - min a b

/-- Python min(candidates, key=lambda s: abs(s - ideal_end)): the first
element of least distance to ideal; on the empty list the code never calls
min (it falls back to ideal_end), modelled by returning ideal. -/
def pickCut (ideal : Nat) : List Nat → Nat
  | [] => ideal
  | c :: rest =>
    rest.foldl (fun best s => if natDist s ideal < natDist best ideal then s else best) c

/-- Cut-point selection of chunk_audio (subtitle_client.py lines 64-69):
with ideal_end the cursor plus M, the candidates are the silence midpoints
inside the window from ideal_end minus flex to ideal_end plus flex, and the
cut is the candidate closest to ideal_end, or ideal_end itself when the
window holds no candidate. -/
def cutAt (M flex : Nat) (mids : List Nat) (start : Nat) : Nat :=
  pickCut (start + M) (mids.filter fun s =>
    decide (start + M - flex ≤ s) && decide (s ≤ start + M + flex))

/-- The chunking loop of chunk_audio (subtitle_client.py lines 55-76) for
an audio of length D, maximum chunk length M, flexibility flex and the
detected silence midpoints, run with explicit fuel (any fuel at least
D - start is enough): while start below D, compute ideal_end; if it reaches
the end emit the final slice and stop; otherwise cut at cutAt and emit the
slice up to it (clamped to D, as Python slicing clamps). Each emitted pair
is the half-open interval of one chunk. -/
def chunk_loop (D M flex : Nat) (mids : List Nat) : Nat → Nat → List (Nat × Nat)
  | 0, _ => []
  | fuel + 1, start =>
    if start < D then
      if D ≤ start + M then [(start, D)]
      else
        (start, min (cutAt M flex mids start) D) ::
          chunk_loop D M flex mids fuel (cutAt M flex mids start)
    else []

/-- Embedding of chunk_audio (subtitle_client.py lines 36-78) at the level
of emitted intervals: one whole-stream chunk when the audio fits in M,
otherwise the chunking loop from 0 with flexibility M / 5. -/
def chunk_audio (D M : Nat) (mids : List Nat) : List (Nat × Nat) :=
  if D ≤ M then [(0, D)] else chunk_loop D M (M / 5) mids D 0

/-- Contiguous chain check: the intervals start at s, each interval begins
where the previous one ended, and the last one ends at D; true forces the
emitted chunks to cover the half-open range s to D exactly, with no gaps
and no overlaps. -/
def chainFrom (D : Nat) : Nat → List (Nat × Nat) → Bool
  | s, [] => s == D
  | s, (a, b) :: rest => a == s && chainFrom D b rest

/-- One id-text pair returned by the external translator, the Translation
model of models.py lines 10-12. -/
structure Translation where
  id : Nat
  text : List Char
deriving DecidableEq, Repr

/-- An id-text pair sent to the translator inside the prompt. -/
abbrev CtxItem := Nat × List Char

/-- The external translator as an opaque function of the three id-text
lists the prompt is built from (context before, texts to translate, context
after), returning parsed Translation records. -/
abbrev Translator := List CtxItem → List CtxItem → List CtxItem → List Translation

/-- The id-text pairs built from entries (models.py lines 106-108). -/
def ctxItems (l : List SubtitleEntry) : List CtxItem := l.map fun s => (s.index, s.text)

/-- Lookup of models.py lines 124-128: the first returned translation whose
id equals the entry's index, or the empty string when none matches. -/
def lookupTranslation (resp : List Translation) (idx : Nat) : List Char :=
  match resp.find? fun t => t.id == idx with
  | some t => t.text
  | none => []

/-- The translator response for the batch starting at position i (models.py
lines 98-121): the batch is the slice of batch_size entries from i, the
context slices reach overlap entries before and after clipped to the list,
and the translator is called on the three id-text lists. -/
def batchResponse (f : Translator) (batch_size overlap : Nat) (subs : List SubtitleEntry)
    (i : Nat) : List Translation :=
  let batch := (subs.drop i).take batch_size
  let start_ctx := i - overlap
  let end_ctx := min subs.length (i + batch_size + overlap)
  let prev_ctx := if 0 < i then (subs.drop start_ctx).take (i - start_ctx) else []
  let next_ctx := if i + batch_size < subs.length then
      (subs.drop (i + batch_size)).take (end_ctx - (i + batch_size))
    else []
  f (ctxItems prev_ctx) (ctxItems batch) (ctxItems next_ctx)

/-- Assignment step of models.py lines 123-128 applied positionally: the
entries at positions i up to i + batch_size (the batch slice) get their
translation field set from the response, every other entry is untouched;
p is the position of the current head. -/
def updateSlice (resp : List Translation) (i batch_size : Nat) :
    Nat → List SubtitleEntry → List SubtitleEntry
  | _, [] => []
  | p, e :: rest =>
    (if i ≤ p ∧ p < i + batch_size then
      { e with translation := some (lookupTranslation resp e.index) }
    else e) :: updateSlice resp i batch_size (p + 1) rest

/-- One batch of translate_subtitles: compute the response for the batch at
i and assign translations to exactly the batch slice. -/
def translateBatch (f : Translator) (batch_size overlap : Nat) (subs : List SubtitleEntry)
    (i : Nat) : List SubtitleEntry :=
  updateSlice (batchResponse f batch_size overlap subs i) i batch_size 0 subs

/-- Python range(0, n, step) for positive step. -/
def pyRange (n step : Nat) : List Nat :=
  (List.range ((n + step - 1) / step)).map (· * step)

/-- The half-open position ranges the batches cover; for each batch start i
the batch slice reaches min (i + batch_size) n. -/
def batchSpans (n batch_size : Nat) : List (Nat × Nat) :=
  (pyRange n batch_size).map fun i => (i, min (i + batch_size) n)

/-- Embedding of Transcription.translate_subtitles (models.py lines
96-128): for each batch start produced by range(0, len, batch_size), in
order, the batch's entries are assigned translations from the translator
response. -/
def translate_subtitles (f : Translator) (batch_size overlap : Nat)
    (subs : List SubtitleEntry) : List SubtitleEntry :=
  (pyRange subs.length batch_size).foldl (translateBatch f batch_size overlap) subs

/- Concrete inputs used by counterexample, failing-input and witness
theorems. -/

/-- A SubtitleEntry with an empty-string translation. -/
def emptyTransEntry : SubtitleEntry :=
  SubtitleEntry.mk 1 (str "00:00:00,000") (str "00:00:01,000") (str "Hi") (some [])

/-- A SubtitleEntry whose formatted times are at and past the 100-hour
mark. -/
def bigEntry : SubtitleEntry :=
  SubtitleEntry.mk 1 (formatTimestamp 360000000) (formatTimestamp 360001000)
    (str "Hi") none

/-- First chunk file of the merge failing inputs: chunk 0 starts at 0 and
carries two entries. -/
def fileC0 : SrtFile :=
  (str "chunk_0_0.srt",
   [SrtMatch.mk 1 (str "00:00:01,000") (str "00:00:02,000") (str "Hello"),
    SrtMatch.mk 2 (str "00:00:03,000") (str "00:00:04,000") (str "World")])

/-- Second chunk file: chunk 1 starts at 600000 ms and carries one entry. -/
def fileC1 : SrtFile :=
  (str "chunk_1_600000.srt",
   [SrtMatch.mk 1 (str "00:00:00,000") (str "00:00:01,000") (str "Again")])

/-- Third chunk file: chunk 2 starts at 1200000 ms and carries one entry. -/
def fileC2 : SrtFile :=
  (str "chunk_2_1200000.srt",
   [SrtMatch.mk 1 (str "00:00:00,000") (str "00:00:01,000") (str "More")])

/-- Two chunk files exhibiting the time bug: chunk 0 covers 0 to 10000 ms
with an entry starting at 5000 ms, chunk 1 starts at 10000 ms with an entry
starting locally at 0 ms. -/
def fileT0 : SrtFile :=
  (str "chunk_0_0.srt",
   [SrtMatch.mk 1 (str "00:00:05,000") (str "00:00:06,000") (str "Hello")])

/-- Companion of fileT0: the chunk starting at 10000 ms. -/
def fileT1 : SrtFile :=
  (str "chunk_1_10000.srt",
   [SrtMatch.mk 1 (str "00:00:00,000") (str "00:00:01,000") (str "World")])

/-- Eleven chunk file names as the chunker emits them for cut points at
multiples of 600000 ms, with no subtitle content (the content is irrelevant
to the processing order). -/
def files11 : List SrtFile :=
  [(str "chunk_0_0.srt", []), (str "chunk_1_600000.srt", []),
   (str "chunk_2_1200000.srt", []), (str "chunk_3_1800000.srt", []),
   (str "chunk_4_2400000.srt", []), (str "chunk_5_3000000.srt", []),
   (str "chunk_6_3600000.srt", []), (str "chunk_7_4200000.srt", []),
   (str "chunk_8_4800000.srt", []), (str "chunk_9_5400000.srt", []),
   (str "chunk_10_6000000.srt", [])]

/-- The sequence number encoded in a chunk file name: the integer value of
the field after the first underscore of the stem. -/
def chunkIndexOf (name : List Char) : Nat :=
  pyInt (((splitU (pathStem name)).getD 1 []))

/-- A fixed list of sixty-five entries for the translation-batch witness. -/
def subs65 : List SubtitleEntry :=
  (List.range 65).map fun k =>
    SubtitleEntry.mk (k + 1) (str "00:00:00,000") (str "00:00:01,000") (str "hi") none

/-- A translator that returns no translations at all, for the witness. -/
def emptyTranslator : Translator := fun _ _ _ => []

/- Arithmetic facts about digit characters, used throughout. -/

theorem digitChar_isDigit : ∀ d < 10, (Nat.digitChar d).isDigit = true := by decide

theorem digitVal_digitChar : ∀ d < 10, digitVal (Nat.digitChar d) = d := by decide

theorem parseTimestamp_cons12 (c0 c1 c2 c3 c4 c5 c6 c7 c8 c9 c10 c11 : Char)
    (rest : List Char) :
    parseTimestamp (c0 :: c1 :: c2 :: c3 :: c4 :: c5 :: c6 :: c7 :: c8 :: c9 :: c10 ::
        c11 :: rest) =
      if c0.isDigit ∧ c1.isDigit ∧ c2 = ':' ∧ c3.isDigit ∧ c4.isDigit ∧ c5 = ':' ∧
          c6.isDigit ∧ c7.isDigit ∧ c8 = ',' ∧ c9.isDigit ∧ c10.isDigit ∧ c11.isDigit then
        some (((10 * digitVal c0 + digitVal c1) * 3600 +
               (10 * digitVal c3 + digitVal c4) * 60 +
               (10 * digitVal c6 + digitVal c7)) * 1000 +
              (100 * digitVal c9 + 10 * digitVal c10 + digitVal c11))
      else none := by
  have hiff : tsCond (c0 :: c1 :: c2 :: c3 :: c4 :: c5 :: c6 :: c7 :: c8 :: c9 :: c10 ::
      c11 :: rest) ↔
      (c0.isDigit ∧ c1.isDigit ∧ c2 = ':' ∧ c3.isDigit ∧ c4.isDigit ∧ c5 = ':' ∧
        c6.isDigit ∧ c7.isDigit ∧ c8 = ',' ∧ c9.isDigit ∧ c10.isDigit ∧ c11.isDigit) := by
    constructor
    · rintro ⟨-, h⟩
      exact h
    · intro h
      refine ⟨?_, h⟩
      simp only [List.length_cons]
      omega
  rw [parseTimestamp, if_congr hiff rfl rfl]
  rfl

theorem matchesExact_cons12 (c0 c1 c2 c3 c4 c5 c6 c7 c8 c9 c10 c11 : Char) :
    matchesExact [c0, c1, c2, c3, c4, c5, c6, c7, c8, c9, c10, c11] =
      if c0.isDigit ∧ c1.isDigit ∧ c2 = ':' ∧ c3.isDigit ∧ c4.isDigit ∧ c5 = ':' ∧
          c6.isDigit ∧ c7.isDigit ∧ c8 = ',' ∧ c9.isDigit ∧ c10.isDigit ∧ c11.isDigit then
        true
      else false := rfl

theorem parseTimestamp_fields (x1 x2 y1 y2 z1 z2 w1 w2 w3 : Char)
    (hx1 : x1.isDigit = true) (hx2 : x2.isDigit = true) (hy1 : y1.isDigit = true)
    (hy2 : y2.isDigit = true) (hz1 : z1.isDigit = true) (hz2 : z2.isDigit = true)
    (hw1 : w1.isDigit = true) (hw2 : w2.isDigit = true) (hw3 : w3.isDigit = true) :
    parseTimestamp
        (x1 :: x2 :: ':' :: y1 :: y2 :: ':' :: z1 :: z2 :: ',' :: w1 :: w2 :: w3 :: []) =
      some (((10 * digitVal x1 + digitVal x2) * 3600 +
             (10 * digitVal y1 + digitVal y2) * 60 +
             (10 * digitVal z1 + digitVal z2)) * 1000 +
            (100 * digitVal w1 + 10 * digitVal w2 + digitVal w3)) := by
  rw [parseTimestamp, if_pos]
  · rfl
  · exact ⟨by simp, hx1, hx2, rfl, hy1, hy2, rfl, hz1, hz2, rfl, hw1, hw2, hw3⟩

theorem parseTimestamp_none_of_pos2 (cs : List Char) (h : cs.getD 2 ' ' ≠ ':') :
    parseTimestamp cs = none := by
  rw [parseTimestamp, if_neg]
  rintro ⟨-, -, -, h3, -⟩
  exact h h3

theorem natDigitsAux_two (fuel n : Nat) (h10 : 10 ≤ n) (h100 : n < 100) (hf : n < fuel) :
    natDigitsAux fuel n = [Nat.digitChar (n / 10), Nat.digitChar (n % 10)] := by
  match fuel with
  | 0 => omega
  | f + 1 =>
    rw [natDigitsAux]
    rw [if_neg (by omega)]
    have h1 : n / 10 < 10 := by omega
    have h2 : n / 10 < f := by omega
    match f with
    | 0 => omega
    | g + 1 =>
      rw [natDigitsAux, if_pos h1]
      rfl

theorem pad2_eq_digits (n : Nat) (h : n < 100) :
    pad2 n = [Nat.digitChar (n / 10), Nat.digitChar (n % 10)] := by
  by_cases h10 : n < 10
  · rw [pad2, if_pos h10]
    have : n / 10 = 0 := by omega
    have : n % 10 = n := by omega
    simp [*, Nat.digitChar]
  · rw [pad2, if_neg h10, natDigits]
    exact natDigitsAux_two (n + 1) n (by omega) h (by omega)

theorem natDigitsAux_three (fuel n : Nat) (h100 : 100 ≤ n) (h1000 : n < 1000) (hf : n < fuel) :
    natDigitsAux fuel n =
      [Nat.digitChar (n / 100), Nat.digitChar (n / 10 % 10), Nat.digitChar (n % 10)] := by
  match fuel with
  | 0 => omega
  | f + 1 =>
    rw [natDigitsAux, if_neg (by omega)]
    rw [natDigitsAux_two f (n / 10) (by omega) (by omega) (by omega)]
    have : n / 10 / 10 = n / 100 := by omega
    rw [this]
    rfl

theorem pad3_eq_digits (n : Nat) (h : n < 1000) :
    pad3 n = [Nat.digitChar (n / 100), Nat.digitChar (n / 10 % 10), Nat.digitChar (n % 10)] := by
  by_cases h10 : n < 10
  · rw [pad3, if_pos h10]
    have e1 : n / 100 = 0 := by omega
    have e2 : n / 10 % 10 = 0 := by omega
    have e3 : n % 10 = n := by omega
    rw [e1, e2, e3]
    rfl
  · by_cases h100 : n < 100
    · rw [pad3, if_neg h10, if_pos h100, natDigits]
      rw [natDigitsAux_two (n + 1) n (by omega) h100 (by omega)]
      have e1 : n / 100 = 0 := by omega
      have e2 : n / 10 % 10 = n / 10 := by omega
      have hz : Nat.digitChar 0 = '0' := by decide
      rw [e1, e2, hz]
    · rw [pad3, if_neg h10, if_neg h100, natDigits]
      exact natDigitsAux_three (n + 1) n (by omega) h (by omega)

theorem parse_mkTime (h m s ms : Nat)
    (hh : h < 100) (hm : m < 100) (hs : s < 100) (hms : ms < 1000) :
    parseTimestamp (mkTime h m s ms) =
      some ((h * 3600 + m * 60 + s) * 1000 + ms) := by
  rw [mkTime, pad2_eq_digits h hh, pad2_eq_digits m hm, pad2_eq_digits s hs,
    pad3_eq_digits ms hms]
  simp only [List.cons_append, List.nil_append]
  rw [parseTimestamp_fields _ _ _ _ _ _ _ _ _
    (digitChar_isDigit _ (by omega)) (digitChar_isDigit _ (by omega))
    (digitChar_isDigit _ (by omega)) (digitChar_isDigit _ (by omega))
    (digitChar_isDigit _ (by omega)) (digitChar_isDigit _ (by omega))
    (digitChar_isDigit _ (by omega)) (digitChar_isDigit _ (by omega))
    (digitChar_isDigit _ (by omega))]
  rw [digitVal_digitChar (h / 10) (by omega), digitVal_digitChar (h % 10) (by omega),
    digitVal_digitChar (m / 10) (by omega), digitVal_digitChar (m % 10) (by omega),
    digitVal_digitChar (s / 10) (by omega), digitVal_digitChar (s % 10) (by omega),
    digitVal_digitChar (ms / 100) (by omega), digitVal_digitChar (ms / 10 % 10) (by omega),
    digitVal_digitChar (ms % 10) (by omega)]
  exact congrArg some (by omega)

theorem format_value (h m s ms : Nat)
    (hm : m < 60) (hs : s < 60) (hms : ms < 1000) :
    formatTimestamp ((h * 3600 + m * 60 + s) * 1000 + ms) = mkTime h m s ms := by
  rw [formatTimestamp, mkTime]
  have e1 : ((h * 3600 + m * 60 + s) * 1000 + ms) / 3600000 = h := by omega
  have e2 : ((h * 3600 + m * 60 + s) * 1000 + ms) / 60000 % 60 = m := by omega
  have e3 : ((h * 3600 + m * 60 + s) * 1000 + ms) / 1000 % 60 = s := by omega
  have e4 : ((h * 3600 + m * 60 + s) * 1000 + ms) % 1000 = ms := by omega
  rw [e1, e2, e3, e4]

/-- Claim C6, counterexample: the string 00:99:00,000 has the exact shape
DD:DD:DD,DDD (minutes field 99), yet formatting the parsed value yields
01:39:00,000, not the original string, because parsing does not validate
that minutes and seconds are below 60 while formatting normalises them. -/
theorem timestamp_roundtrip_cex :
    (parseTimestamp (str "00:99:00,000")).map formatTimestamp ≠
      some (str "00:99:00,000") ∧
    matchesExact (str "00:99:00,000") = true := by decide

/-- Claim C6, amended: for every string of the exact form DD:DD:DD,DDD whose
minutes field and seconds field are below 60, formatting the parsed
Timestamp yields the original string back. -/
theorem timestamp_roundtrip (h m s ms : Nat)
    (hh : h < 100) (hm : m < 60) (hs : s < 60) (hms : ms < 1000) :
    (parseTimestamp (mkTime h m s ms)).map formatTimestamp =
      some (mkTime h m s ms) := by
  rw [parse_mkTime h m s ms hh (by omega) (by omega) hms]
  rw [Option.map_some']
  rw [format_value h m s ms hm hs hms]

/-- Witness for the amended claim C6 at the concrete string 01:02:03,456. -/
theorem timestamp_roundtrip_witness :
    (parseTimestamp (mkTime 1 2 3 456)).map formatTimestamp =
      some (mkTime 1 2 3 456) :=
  timestamp_roundtrip 1 2 3 456 (by decide) (by decide) (by decide) (by decide)

/-- Claim C7, counterexample: the string 00:00:00,000x does not have the
exact form DD:DD:DD,DDD (it has a trailing character), yet parsing succeeds
with value 0, because re.match only anchors the pattern at the start of the
string and ignores everything after the first twelve characters. -/
theorem timestamp_parse_exact_cex :
    parseTimestamp (str "00:00:00,000x") = some 0 ∧
    matchesExact (str "00:00:00,000x") = false := by decide

/-- Claim C7, amended: parsing succeeds exactly on the strings whose first
twelve characters match DD:DD:DD,DDD; characters after that prefix of the
string are ignored, and parsing fails (raises ValueError, the spec's
FormatError) on every other string. -/
theorem timestamp_parse_anchored (cs : List Char) :
    (parseTimestamp cs).isSome = matchesExact (cs.take 12) := by
  rcases cs with _ | ⟨c0, _ | ⟨c1, _ | ⟨c2, _ | ⟨c3, _ | ⟨c4, _ | ⟨c5, _ | ⟨c6, _ | ⟨c7,
    _ | ⟨c8, _ | ⟨c9, _ | ⟨c10, _ | ⟨c11, rest⟩⟩⟩⟩⟩⟩⟩⟩⟩⟩⟩⟩
  all_goals try rfl
  have ht : (c0 :: c1 :: c2 :: c3 :: c4 :: c5 :: c6 :: c7 :: c8 :: c9 :: c10 ::
      c11 :: rest).take 12 = [c0, c1, c2, c3, c4, c5, c6, c7, c8, c9, c10, c11] := by
    simp
  rw [ht, parseTimestamp_cons12, matchesExact_cons12]
  by_cases hcond : c0.isDigit ∧ c1.isDigit ∧ c2 = ':' ∧ c3.isDigit ∧ c4.isDigit ∧
      c5 = ':' ∧ c6.isDigit ∧ c7.isDigit ∧ c8 = ',' ∧ c9.isDigit ∧ c10.isDigit ∧ c11.isDigit
  · rw [if_pos hcond, if_pos hcond]
    rfl
  · rw [if_neg hcond, if_neg hcond]
    rfl

/-- Claim C9, counterexample: for the entry with text Hi and an
empty-string translation, translated mode emits the text Hi, while the
claim as stated (translation emitted whenever present) calls for the empty
content; the code treats an empty-string translation as no translation in
translated mode too, not only in bilingual mode. -/
theorem to_srt_block_cex :
    to_srt_block emptyTransEntry (modeFlags RenderMode.translated).1
        (modeFlags RenderMode.translated).2 ≠
      claimBlock emptyTransEntry RenderMode.translated := by decide

/-- Claim C9, amended: for every SubtitleEntry and every mode, the rendered
block is index, newline, start --> end, newline, content, newline, where
content is text in original mode, translation when present and non-empty
else text in translated mode, and text followed by the translation on the
next line when present and non-empty else text alone in bilingual mode: an
empty-string translation is treated as no translation in both translated
and bilingual modes. -/
theorem to_srt_block_modes (e : SubtitleEntry) (m : RenderMode) :
    to_srt_block e (modeFlags m).1 (modeFlags m).2 = amendedBlock e m := by
  cases m <;>
    simp [modeFlags, to_srt_block, amendedBlock, amendedContent]

theorem natDigitsAux_len1 (fuel n : Nat) (h : 0 < fuel) :
    1 ≤ (natDigitsAux fuel n).length := by
  match fuel with
  | f + 1 =>
    rw [natDigitsAux]
    by_cases h10 : n < 10
    · rw [if_pos h10]
      simp
    · rw [if_neg h10]
      simp

theorem natDigitsAux_len2 (fuel n : Nat) (h10 : 10 ≤ n) (hf : n < fuel) :
    2 ≤ (natDigitsAux fuel n).length := by
  match fuel with
  | 0 => omega
  | f + 1 =>
    rw [natDigitsAux, if_neg (by omega)]
    simp only [List.length_append, List.length_cons, List.length_nil]
    have := natDigitsAux_len1 f (n / 10) (by omega)
    omega

theorem natDigits_len3 (n : Nat) (h : 100 ≤ n) : 3 ≤ (natDigits n).length := by
  rw [natDigits, natDigitsAux, if_neg (by omega)]
  simp only [List.length_append, List.length_cons, List.length_nil]
  have := natDigitsAux_len2 n (n / 10) (by omega) (by omega)
  omega

theorem natDigitsAux_digits (fuel : Nat) :
    ∀ n, ∀ c ∈ natDigitsAux fuel n, c.isDigit = true := by
  induction fuel with
  | zero =>
    intro n c hc
    simp [natDigitsAux] at hc
  | succ f ih =>
    intro n c hc
    rw [natDigitsAux] at hc
    by_cases h10 : n < 10
    · rw [if_pos h10] at hc
      simp at hc
      subst hc
      exact digitChar_isDigit n h10
    · rw [if_neg h10] at hc
      rw [List.mem_append] at hc
      rcases hc with hc | hc
      · exact ih (n / 10) c hc
      · simp at hc
        subst hc
        exact digitChar_isDigit _ (by omega)

theorem format_parse_none (v : Nat) (hv : 360000000 ≤ v) :
    parseTimestamp (formatTimestamp v) = none := by
  have hr : 100 ≤ v / 3600000 := by omega
  have hp2 : pad2 (v / 3600000) = natDigits (v / 3600000) := by
    rw [pad2, if_neg (by omega)]
  have hlen := natDigits_len3 _ hr
  rcases hnd : natDigits (v / 3600000) with _ | ⟨a, _ | ⟨b, _ | ⟨c, t⟩⟩⟩
  · rw [hnd] at hlen
    simp at hlen
  · rw [hnd] at hlen
    simp at hlen
  · rw [hnd] at hlen
    simp at hlen
  · have hcdig : c.isDigit = true := by
      have hmem : c ∈ natDigits (v / 3600000) := by
        rw [hnd]
        simp
      exact natDigitsAux_digits _ _ c hmem
    apply parseTimestamp_none_of_pos2
    rw [formatTimestamp, hp2, hnd]
    simp only [List.cons_append]
    have hg : ∀ l : List Char, (a :: b :: c :: l).getD 2 ' ' = c := fun l => rfl
    rw [hg]
    intro heq
    rw [heq] at hcdig
    exact absurd hcdig (by decide)

/-- Claim C10: for every SubtitleEntry whose start or end time is the
formatted form of a value of at least 100 hours (360000000 ms), the hour
field of that formatted time has at least three characters, and offsetting
the entry by any amount (zero included) fails, because offsetting re-parses
the formatted strings and the parse requires exactly two hour digits before
the first colon. -/
theorem offset_past_100h (v1 v2 off : Nat) (e : SubtitleEntry)
    (hs : e.start_time = formatTimestamp v1) (ht : e.end_time = formatTimestamp v2)
    (hbig : 360000000 ≤ v1 ∨ 360000000 ≤ v2) :
    (360000000 ≤ v1 → 3 ≤ (pad2 (v1 / 3600000)).length) ∧
    (360000000 ≤ v2 → 3 ≤ (pad2 (v2 / 3600000)).length) ∧
    SubtitleEntry.offset e off = none := by
  refine ⟨?_, ?_, ?_⟩
  · intro h
    rw [pad2, if_neg (by omega)]
    exact natDigits_len3 _ (by omega)
  · intro h
    rw [pad2, if_neg (by omega)]
    exact natDigits_len3 _ (by omega)
  · rw [SubtitleEntry.offset, hs, ht]
    rcases hbig with h | h
    · rw [format_parse_none v1 h]
    · cases hp : parseTimestamp (formatTimestamp v1)
      · rfl
      · rw [format_parse_none v2 h]

/-- Witness for claim C10 at the entry whose formatted times are 100 hours
and 100 hours plus one second, with offset zero. -/
theorem offset_past_100h_witness :
    (360000000 ≤ 360000000 → 3 ≤ (pad2 (360000000 / 3600000)).length) ∧
    (360000000 ≤ 360001000 → 3 ≤ (pad2 (360001000 / 3600000)).length) ∧
    SubtitleEntry.offset bigEntry 0 = none :=
  offset_past_100h 360000000 360001000 0 bigEntry rfl rfl (Or.inl (by omega))

/-- Claim C1, evaluation at the failing input: merging three chunk files
with locally contiguous indices 1-2, 1, 1 yields merged indices 1, 2, 3, 2
with watermark end_index 1, not the claimed contiguous 1, 2, 3, 4 with
watermark 4: Transcription.offset does not update end_index, so the
accumulator stores each chunk's pre-shift last index and the third chunk is
shifted by a stale watermark. -/
theorem merge_indices_bug :
    (process_transcription [fileC0, fileC1, fileC2]).map
        (fun t => (t.subtitles.map fun e => e.index, t.end_index)) =
      some ([1, 2, 3, 2], 1) ∧
    ([1, 2, 3, 2] ≠ [1, 2, 3, 4] ∧ (1 : Nat) ≠ 4) := by decide

/-- Claim C2, evaluation at the failing input: chunk 0 covers 0 to 10000 ms
with an entry starting at 5000 ms and chunk 1 starts at 10000 ms with an
entry starting locally at 0 ms; the merged start times are 5000 then 0,
violating monotonicity, because the second chunk is offset by the
accumulated end_time, which holds the previous chunk's start offset (0)
rather than its end. -/
theorem merge_time_bug :
    (process_transcription [fileT0, fileT1]).map
        (fun t => t.subtitles.map fun e => parseTimestamp e.start_time) =
      some [some 5000, some 0] ∧ ¬ (5000 ≤ 0) := by decide

/-- Claim C3, evaluation at the failing input: after merging the single
chunk file chunk_0_0.srt of a chunk covering 0 to 600000 ms, the
accumulated end_time is 0 (the integer parsed from the last underscore
field of the file name, which the chunker sets to the chunk's start
offset), not the chunk's absolute end time 600000. -/
theorem end_time_bug :
    (process_transcription [fileC0]).map (fun t => t.end_time) = some 0 ∧
    (0 : Nat) ≠ 600000 := by decide

/-- Claim C4, evaluation at the failing input: with eleven chunk files the
sorted processing order of process_transcription visits the sequence
numbers as 0, 10, 1, 2, 3, 4, 5, 6, 7, 8, 9, because file names are sorted
lexicographically and the digit 0 orders before the underscore; merging is
not in ascending sequence-number order. -/
theorem merge_order_bug :
    (sortByName files11).map (fun f => chunkIndexOf f.1) =
      [0, 10, 1, 2, 3, 4, 5, 6, 7, 8, 9] ∧
    [0, 10, 1, 2, 3, 4, 5, 6, 7, 8, 9] ≠ [0, 1, 2, 3, 4, 5, 6, 7, 8, 9, 10] := by decide

theorem pick_foldl_mem (ideal : Nat) :
    ∀ (l : List Nat) (a : Nat),
      l.foldl (fun best s => if natDist s ideal < natDist best ideal then s else best) a ∈
        a :: l := by
  intro l
  induction l with
  | nil =>
    intro a
    simp
  | cons x xs ih =>
    intro a
    rw [List.foldl_cons]
    have h := ih (if natDist x ideal < natDist a ideal then x else a)
    by_cases hc : natDist x ideal < natDist a ideal
    · rw [if_pos hc] at h ⊢
      simp [List.mem_cons] at h ⊢
      tauto
    · rw [if_neg hc] at h ⊢
      simp [List.mem_cons] at h ⊢
      tauto

theorem pickCut_spec (ideal : Nat) (cands : List Nat) :
    pickCut ideal cands = ideal ∨ pickCut ideal cands ∈ cands := by
  cases cands with
  | nil =>
    left
    rfl
  | cons c rest =>
    right
    rw [pickCut]
    have h := pick_foldl_mem ideal rest c
    simp [List.mem_cons] at h ⊢
    tauto

theorem cutAt_bounds (M flex : Nat) (mids : List Nat) (start : Nat) (hflex : flex ≤ M) :
    start + (M - flex) ≤ cutAt M flex mids start ∧
    cutAt M flex mids start ≤ start + M + flex := by
  rw [cutAt]
  rcases pickCut_spec (start + M) (mids.filter fun s =>
      decide (start + M - flex ≤ s) && decide (s ≤ start + M + flex)) with h | h
  · rw [h]
    omega
  · rw [List.mem_filter] at h
    have h1 := h.2
    rw [Bool.and_eq_true, decide_eq_true_eq, decide_eq_true_eq] at h1
    omega

theorem chunk_loop_stop (D M flex : Nat) (mids : List Nat) (fuel s : Nat) (h : D ≤ s) :
    chunk_loop D M flex mids fuel s = [] := by
  cases fuel with
  | zero => rfl
  | succ f => rw [chunk_loop, if_neg (by omega)]

theorem chunk_loop_chain (D M : Nat) (mids : List Nat) (hM : 1 ≤ M) :
    ∀ fuel start, start < D → D ≤ start + fuel →
      chainFrom D start (chunk_loop D M (M / 5) mids fuel start) = true ∧
      ∀ p ∈ chunk_loop D M (M / 5) mids fuel start, p.1 < p.2 ∧ p.2 - p.1 ≤ M + M / 5 := by
  intro fuel
  induction fuel with
  | zero =>
    intro start h1 h2
    omega
  | succ f ih =>
    intro start h1 h2
    rw [chunk_loop, if_pos h1]
    by_cases hend : D ≤ start + M
    · rw [if_pos hend]
      refine ⟨by simp [chainFrom], ?_⟩
      intro p hp
      simp only [List.mem_singleton] at hp
      subst hp
      exact ⟨h1, by simp; omega⟩
    · rw [if_neg hend]
      have hcb := cutAt_bounds M (M / 5) mids start (by omega)
      have hcut_gt : start < cutAt M (M / 5) mids start := by omega
      by_cases hDc : D ≤ cutAt M (M / 5) mids start
      · rw [chunk_loop_stop D M (M / 5) mids f _ hDc]
        have hmin : min (cutAt M (M / 5) mids start) D = D := by omega
        rw [hmin]
        refine ⟨by simp [chainFrom], ?_⟩
        intro p hp
        simp only [List.mem_singleton] at hp
        subst hp
        exact ⟨h1, by simp; omega⟩
      · have hmin : min (cutAt M (M / 5) mids start) D = cutAt M (M / 5) mids start := by
          omega
        rw [hmin]
        obtain ⟨hc1, hc2⟩ := ih (cutAt M (M / 5) mids start) (by omega) (by omega)
        refine ⟨by simp [chainFrom, hc1], ?_⟩
        intro p hp
        rw [List.mem_cons] at hp
        rcases hp with hp | hp
        · subst hp
          exact ⟨by omega, by simp; omega⟩
        · exact hc2 p hp

/-- Claim C5, counterexample: with duration 1000, maximum chunk length 600
and one silence midpoint at 700, the emitted chunks are (0, 700) and
(700, 1000); the first chunk has length 700, exceeding the maximum 600,
because a silence midpoint may be chosen up to M / 5 past the ideal end and
the window is not clamped to the maximum. -/
theorem chunk_audio_cex :
    chunk_audio 1000 600 [700] = [(0, 700), (700, 1000)] ∧ ¬ (700 - 0 ≤ 600) := by decide

/-- Claim C5, amended: for positive maximum chunk length M, if the duration
D fits in M the chunker emits exactly one chunk covering 0 to D with start
offset 0; otherwise the emitted half-open intervals are contiguous from 0
to D (so they cover the stream with no gaps and no overlaps), every chunk
is non-empty, and every chunk's length is at most M + M / 5: a chunk may
exceed M by up to the window flexibility M / 5, and no more. -/
theorem chunk_audio_cover (D M : Nat) (mids : List Nat) (hM : 1 ≤ M) :
    (D ≤ M → chunk_audio D M mids = [(0, D)]) ∧
    (M < D →
      chainFrom D 0 (chunk_audio D M mids) = true ∧
      ∀ p ∈ chunk_audio D M mids, p.1 < p.2 ∧ p.2 - p.1 ≤ M + M / 5) := by
  constructor
  · intro h
    rw [chunk_audio, if_pos h]
  · intro h
    rw [chunk_audio, if_neg (by omega)]
    exact chunk_loop_chain D M mids hM D 0 (by omega) (by omega)

/-- Witness for the amended claim C5 at duration 1000, maximum 600 and
silence midpoints 250 and 700. -/
theorem chunk_audio_cover_witness :
    (1000 ≤ 600 → chunk_audio 1000 600 [250, 700] = [(0, 1000)]) ∧
    (600 < 1000 →
      chainFrom 1000 0 (chunk_audio 1000 600 [250, 700]) = true ∧
      ∀ p ∈ chunk_audio 1000 600 [250, 700], p.1 < p.2 ∧ p.2 - p.1 ≤ 600 + 600 / 5) :=
  chunk_audio_cover 1000 600 [250, 700] (by omega)

theorem updateSlice_length (resp : List Translation) (i bs : Nat) :
    ∀ (l : List SubtitleEntry) (p : Nat), (updateSlice resp i bs p l).length = l.length := by
  intro l
  induction l with
  | nil =>
    intro p
    rfl
  | cons e rest ih =>
    intro p
    rw [updateSlice]
    simp only [List.length_cons, ih (p + 1)]

theorem updateSlice_get? (resp : List Translation) (i bs : Nat) :
    ∀ (l : List SubtitleEntry) (p k : Nat),
      (updateSlice resp i bs p l).get? k =
        (l.get? k).map fun e =>
          if i ≤ p + k ∧ p + k < i + bs then
            { e with translation := some (lookupTranslation resp e.index) }
          else e := by
  intro l
  induction l with
  | nil =>
    intro p k
    simp [updateSlice]
  | cons e rest ih =>
    intro p k
    rw [updateSlice]
    cases k with
    | zero =>
      simp only [List.get?_cons_zero, Option.map_some', Nat.add_zero]
    | succ kk =>
      simp only [List.get?_cons_succ]
      rw [ih (p + 1) kk]
      have he : p + 1 + kk = p + (kk + 1) := by omega
      rw [he]

theorem translateBatch_length (f : Translator) (bs ov : Nat) (subs : List SubtitleEntry)
    (i : Nat) : (translateBatch f bs ov subs i).length = subs.length := by
  rw [translateBatch, updateSlice_length]

theorem translateBatch_get? (f : Translator) (bs ov : Nat) (subs : List SubtitleEntry)
    (i k : Nat) :
    (translateBatch f bs ov subs i).get? k =
      (subs.get? k).map fun e =>
        if i ≤ k ∧ k < i + bs then
          { e with translation := some (lookupTranslation (batchResponse f bs ov subs i) e.index) }
        else e := by
  rw [translateBatch, updateSlice_get?]
  simp only [Nat.zero_add]

/-- Claim C8: translating a 65-entry timeline with batch size 30 and
overlap 5 makes exactly 3 translator calls covering the position ranges
0-30, 30-60 and 60-65; after the pass every entry carries a non-null
translation; within one batch, positions outside the batch slice (the
context entries) are never assigned; and a batch entry whose index matches
no id of the translator response receives the empty string as its
translation. -/
theorem translate_batches_65 (subs : List SubtitleEntry) (f : Translator)
    (h : subs.length = 65) :
    batchSpans 65 30 = [(0, 30), (30, 60), (60, 65)] ∧
    (translate_subtitles f 30 5 subs).length = 65 ∧
    (∀ k e2, (translate_subtitles f 30 5 subs).get? k = some e2 →
      e2.translation.isSome = true) ∧
    (∀ i ∈ pyRange 65 30, ∀ k, ¬ (i ≤ k ∧ k < i + 30) →
      (translateBatch f 30 5 subs i).get? k = subs.get? k) ∧
    (∀ i ∈ pyRange 65 30, ∀ k e2, subs.get? k = some e2 → i ≤ k ∧ k < i + 30 →
      (∀ t ∈ batchResponse f 30 5 subs i, t.id ≠ e2.index) →
      (translateBatch f 30 5 subs i).get? k =
        some { e2 with translation := some [] }) := by
  have hr : pyRange 65 30 = [0, 30, 60] := by decide
  refine ⟨by decide, ?_, ?_, ?_, ?_⟩
  · rw [translate_subtitles, h, hr]
    simp only [List.foldl_cons, List.foldl_nil]
    rw [translateBatch_length, translateBatch_length, translateBatch_length, h]
  · intro k e2 hk
    rw [translate_subtitles, h, hr] at hk
    simp only [List.foldl_cons, List.foldl_nil] at hk
    rw [translateBatch_get?] at hk
    rw [translateBatch_get?] at hk
    rw [translateBatch_get?] at hk
    cases hsk : subs.get? k with
    | none =>
      rw [hsk] at hk
      simp at hk
    | some e0 =>
      rw [hsk] at hk
      simp only [Option.map_some'] at hk
      have he2 := Option.some.inj hk
      have hk65 : k < 65 := by
        obtain ⟨hlt, -⟩ := List.get?_eq_some.mp hsk
        omega
      rw [← he2]
      by_cases h30 : k < 30
      · rw [if_neg (by omega), if_neg (by omega), if_pos (by omega)]
        simp
      · by_cases h60 : k < 60
        · rw [if_neg (by omega), if_pos (by omega)]
          simp
        · rw [if_pos (by omega)]
          simp
  · intro i _ k hk
    rw [translateBatch_get?]
    cases hsk : subs.get? k with
    | none => rfl
    | some e0 =>
      simp only [Option.map_some']
      rw [if_neg hk]
  · intro i _ k e2 hsk hin hnone
    rw [translateBatch_get?, hsk]
    simp only [Option.map_some']
    rw [if_pos hin]
    have hf : (batchResponse f 30 5 subs i).find? (fun t => t.id == e2.index) = none := by
      rw [List.find?_eq_none]
      intro t ht
      simp only [beq_iff_eq]
      exact hnone t ht
    rw [lookupTranslation, hf]

/-- Witness for claim C8 at a fixed list of sixty-five entries and the
translator that returns no translations. -/
theorem translate_batches_65_witness :
    batchSpans 65 30 = [(0, 30), (30, 60), (60, 65)] ∧
    (translate_subtitles emptyTranslator 30 5 subs65).length = 65 ∧
    (∀ k e2, (translate_subtitles emptyTranslator 30 5 subs65).get? k = some e2 →
      e2.translation.isSome = true) ∧
    (∀ i ∈ pyRange 65 30, ∀ k, ¬ (i ≤ k ∧ k < i + 30) →
      (translateBatch emptyTranslator 30 5 subs65 i).get? k = subs65.get? k) ∧
    (∀ i ∈ pyRange 65 30, ∀ k e2, subs65.get? k = some e2 → i ≤ k ∧ k < i + 30 →
      (∀ t ∈ batchResponse emptyTranslator 30 5 subs65 i, t.id ≠ e2.index) →
      (translateBatch emptyTranslator 30 5 subs65 i).get? k =
        some { e2 with translation := some [] }) :=
  translate_batches_65 subs65 emptyTranslator (by simp [subs65])

end SubtitleApp
